import Mathlib

/-!
Verification model of the Exampelbackend submission ingestion pipeline.

The definitions below are shallow embeddings of the TypeScript sources:
  * `src/utils/pdfHeuristics.ts`  — PDF text-layer heuristic
  * `src/utils/cursor.ts`         — base64url pagination cursors
  * `src/utils/uploads.ts`        — upload size bound
  * `src/modules/submissions/service.ts`    — SubmissionsService
  * `src/modules/submissions/controller.ts` — HTTP controller glue
  * the cache-db helpers of `@core/cache/db` (staged in
    `src/core/auth/verify.ts`) — `app.cache` invalidation

JavaScript strings and byte buffers are both modelled as `List Nat`
(character codes / byte values).  Node's latin1 conversion is the identity
on byte values, and utf8 encoding/decoding is the identity on the ASCII
range, which is the only range the verified properties exercise.
-/

/-- Character codes of a Lean string literal (all literals used are ASCII). -/
def strBytes (s : String) : List Nat := s.toList.map Char.toNat

/-! ### src/utils/pdfHeuristics.ts -/

/-- Byte pattern of the marker `/Font`. -/
def fontPat : List Nat := strBytes "/Font"

/-- Byte pattern of the marker `/ToUnicode`. -/
def toUniPat : List Nat := strBytes "/ToUnicode"

/-- Byte pattern `BT` (begin-text operator). -/
def btPat : List Nat := strBytes "BT"

/-- Byte pattern `ET` (end-text operator). -/
def etPat : List Nat := strBytes "ET"

/-- Does `s` start with the byte pattern `pat`? -/
def listStartsWith : List Nat → List Nat → Bool
  | [], _ => true
  | _ :: _, [] => false
  | p :: ps, c :: cs => p == c && listStartsWith ps cs

/-- Does `pat` occur contiguously somewhere in `s`?
(Existence of a match of a literal regex alternative.) -/
def containsSeq (pat : List Nat) : List Nat → Bool
  | [] => listStartsWith pat []
  | c :: cs => listStartsWith pat (c :: cs) || containsSeq pat cs

/-- Existence of a match of the regex piece `BT[\s\S]+?ET`: a `BT`, then at
least one arbitrary byte, then an `ET`. -/
def btEtScan : List Nat → Bool
  | [] => false
  | c :: cs =>
    (listStartsWith btPat (c :: cs) && containsSeq etPat (cs.drop 2)) || btEtScan cs

/-- `pdfLikelyHasTextLayer` from `src/utils/pdfHeuristics.ts`: take the first
`min(length, 2 * 1024 * 1024)` bytes (the latin1 view is the identity on
bytes) and test the regex `/\/Font|\/ToUnicode|BT[\s\S]+?ET/`. -/
def pdfLikelyHasTextLayer (buf : List Nat) : Bool :=
  let head := buf.take (Nat.min buf.length (2 * 1024 * 1024))
  containsSeq fontPat head || containsSeq toUniPat head || btEtScan head

/-- Declarative reading of the spec's marker condition: the scanned bytes
contain `/Font`, or `/ToUnicode`, or a `BT` … `ET` span with a non-empty
body. -/
def HasTextLayerMarker (s : List Nat) : Prop :=
  (∃ l r, s = l ++ fontPat ++ r) ∨
  (∃ l r, s = l ++ toUniPat ++ r) ∨
  (∃ l mid r, mid ≠ [] ∧ s = l ++ btPat ++ mid ++ etPat ++ r)

/-! ### src/utils/cursor.ts (with Node's base64url and parseInt semantics) -/

/-- base64url alphabet: sextet value → character code. -/
def sextetToChar (s : Nat) : Nat :=
  if s < 26 then 65 + s
  else if s < 52 then 97 + (s - 26)
  else if s < 62 then 48 + (s - 52)
  else if s = 62 then 45
  else 95

/-- base64url alphabet: character code → sextet value, `none` when the
character is outside the alphabet (Node's decoder skips such characters). -/
def charToSextet (c : Nat) : Option Nat :=
  if 65 ≤ c ∧ c ≤ 90 then some (c - 65)
  else if 97 ≤ c ∧ c ≤ 122 then some (26 + (c - 97))
  else if 48 ≤ c ∧ c ≤ 57 then some (52 + (c - 48))
  else if c = 45 then some 62
  else if c = 95 then some 63
  else none

/-- Encode bytes as base64 sextets (3 bytes → 4 sextets; final quantum of 1
byte → 2 sextets, of 2 bytes → 3 sextets; unpadded, as Node's base64url). -/
def b64EncodeGroups : List Nat → List Nat
  | a :: b :: c :: rest =>
    (a / 4) :: ((a % 4) * 16 + b / 16) :: ((b % 16) * 4 + c / 64) :: (c % 64) ::
      b64EncodeGroups rest
  | [a, b] => [a / 4, (a % 4) * 16 + b / 16, (b % 16) * 4]
  | [a] => [a / 4, (a % 4) * 16]
  | [] => []

/-- Decode base64 sextets back to bytes (4 sextets → 3 bytes; a final
quantum of 3 sextets → 2 bytes, of 2 sextets → 1 byte; a lone trailing
sextet is dropped). -/
def b64DecodeGroups : List Nat → List Nat
  | s0 :: s1 :: s2 :: s3 :: rest =>
    (s0 * 4 + s1 / 16) :: ((s1 % 16) * 16 + s2 / 4) :: ((s2 % 4) * 64 + s3) ::
      b64DecodeGroups rest
  | [s0, s1, s2] => [s0 * 4 + s1 / 16, (s1 % 16) * 16 + s2 / 4]
  | [s0, s1] => [s0 * 4 + s1 / 16]
  | _ => []

/-- `Buffer.from(bytes).toString("base64url")`. -/
def b64urlEncode (bytes : List Nat) : List Nat :=
  (b64EncodeGroups bytes).map sextetToChar

/-- `Buffer.from(chars, "base64url")`: non-alphabet characters are skipped,
then sextets are packed back into bytes. -/
def b64urlDecode (chars : List Nat) : List Nat :=
  b64DecodeGroups (chars.filterMap charToSextet)

/-- Decimal digits of `n`, least significant first. -/
def decDigitsRev (n : Nat) : List Nat :=
  if n < 10 then [n] else n % 10 :: decDigitsRev (n / 10)
decreasing_by simp_wf; omega

/-- `String(n)` for a non-negative integer: character codes of the decimal
representation. -/
def decRepr (n : Nat) : List Nat :=
  (decDigitsRev n).reverse.map (· + 48)

/-- ASCII decimal digit? -/
def isDigitCode (c : Nat) : Bool := 48 ≤ c && c ≤ 57

/-- Whitespace skipped by `parseInt` (ASCII whitespace; the non-ASCII
whitespace code points never arise in the verified properties). -/
def isWsCode (c : Nat) : Bool := c == 32 || (9 ≤ c && c ≤ 13)

/-- Value of the longest leading run of decimal digits; `none` when there is
no leading digit (`parseInt` returns NaN then). -/
def digitsLeadVal (s : List Nat) : Option Nat :=
  let ds := s.takeWhile isDigitCode
  if ds = [] then none
  else some (ds.foldl (fun a d => a * 10 + (d - 48)) 0)

/-- `parseInt(s, 10)`: skip leading whitespace, optional sign (`+` is 43,
`-` is 45), then the longest digit run; `none` models NaN. -/
def jsParseInt (s : List Nat) : Option Int :=
  match s.dropWhile isWsCode with
  | [] => none
  | c :: rest =>
    if c = 43 then (digitsLeadVal rest).map Int.ofNat
    else if c = 45 then (digitsLeadVal rest).map (fun v => -(v : Int))
    else (digitsLeadVal (c :: rest)).map Int.ofNat

/-- `encodeCursor` from `src/utils/cursor.ts`:
`Buffer.from(String(n), "utf8").toString("base64url")` (utf8 is the identity
on the ASCII decimal representation). -/
def encodeCursor (n : Nat) : List Nat :=
  b64urlEncode (decRepr n)

/-- `decodeCursor` from `src/utils/cursor.ts`: `none` models an absent
cursor and `[]` the empty string (both falsy); otherwise base64url-decode,
`parseInt(s, 10)`, and return the value only when it is a finite
non-negative number, else `0`. -/
def decodeCursor (c : Option (List Nat)) : Nat :=
  match c with
  | none => 0
  | some cs =>
    if cs = [] then 0
    else
      match jsParseInt (b64urlDecode cs) with
      | some n => if 0 ≤ n then n.toNat else 0
      | none => 0

/-! ### src/utils/uploads.ts -/

/-- `MAX_BYTES` from `src/utils/uploads.ts`: 10 MB. -/
def MAX_BYTES : Nat := 10 * 1024 * 1024

/-! ### Data model (schema of `app.submissions` / `app.submission_events`) -/

/-- A row of `app.submissions` (columns the service reads and writes;
`created_at` is the DB timestamp used by `ORDER BY created_at`). -/
structure SubRow where
  id : String
  assignmentId : String
  studentId : String
  mime : String
  size : Nat
  sha256 : String
  storagePath : String
  status : String
  extractionStatus : String
  ocrRequired : Bool
  extractedText : Option String
  correlationId : Option String
  createdAt : Nat
deriving Repr, DecidableEq

/-- Structured view of the JSON payloads the service writes to
`app.submission_events`. -/
inductive EventPayload
  | created (fileName : String) (size : Nat) (dataMode : String)
  | parsedStub
  | ocrPending (reason : String)
deriving Repr, DecidableEq

/-- A row of `app.submission_events` as appended by the service. -/
structure EventRow where
  submissionId : String
  eventType : String
  payload : EventPayload
  correlationId : Option String
deriving Repr, DecidableEq

/-- An object written to the artifact store. -/
structure Artifact where
  storagePath : String
  bytes : List Nat
deriving Repr, DecidableEq

/-- Combined persistent state touched by the service: submission rows,
event rows, artifact-store objects and the `app.cache` table. -/
structure DbState where
  submissions : List SubRow
  events : List EventRow
  artifacts : List Artifact
  cache : List (String × String)
deriving Repr, DecidableEq

/-- External collaborators of one `createSubmission` call, passed as data:
the SHA-256 hex digest (the `crypto` module), the generated submission id,
the DB clock reading for `created_at`, and the storage provider's path
construction `mkPath grade assignmentId submissionId ext`
(`StorageProvider.saveOriginal` from `src/types/storage.ts`). -/
structure Env where
  hashFn : List Nat → String
  genId : String
  now : Nat
  mkPath : Option String → String → String → String → String

/-- Errors thrown by `createSubmission`: the defensive size check
(`http: 413, code: "too_large"`) and a re-thrown Postgres `23505`
unique-violation. -/
inductive SvcError
  | tooLarge
  | uniqueViolation
deriving Repr, DecidableEq

/-- Success value of `createSubmission`. -/
structure CreateResult where
  submissionId : String
  status : String
  extractionStatus : String
  ocrRequired : Bool
deriving Repr, DecidableEq

/-! ### src/modules/submissions/service.ts -/

/-- `pickExt` from the service: storage extension per MIME type. -/
def pickExt (mime : String) : String :=
  if mime = "application/pdf" then ".pdf"
  else if mime = "image/jpeg" then ".jpg"
  else if mime = "image/png" then ".png"
  else if mime = "text/plain" then ".txt"
  else if mime = "application/vnd.openxmlformats-officedocument.wordprocessingml.document"
    then ".docx"
  else ""

/-- Result record of `decideExtraction`. -/
structure ExtractionDecision where
  ocrRequired : Bool
  extractionStatus : String
  extractedText : Option String
deriving Repr, DecidableEq

/-- `decideExtraction` from the service: images → OCR, PDFs → heuristic,
DOCX/TXT → parsed stub, anything else → OCR. -/
def decideExtraction (mime : String) (buf : List Nat) : ExtractionDecision :=
  if mime = "image/jpeg" ∨ mime = "image/png" then
    ⟨true, "pending_ocr", none⟩
  else if mime = "application/pdf" then
    if pdfLikelyHasTextLayer buf then
      ⟨false, "parsed", some "[stub] Extracted text from PDF"⟩
    else
      ⟨true, "pending_ocr", none⟩
  else if mime = "application/vnd.openxmlformats-officedocument.wordprocessingml.document"
      ∨ mime = "text/plain" then
    ⟨false, "parsed", some "[stub] Extracted text from document"⟩
  else
    ⟨true, "pending_ocr", none⟩

/-- Does a row match the idempotency triple
(`assignment_id`, `student_id`, `sha256`)? -/
def tripleMatches (r : SubRow) (a s h : String) : Bool :=
  r.assignmentId == a && r.studentId == s && r.sha256 == h

/-- `ORDER BY created_at ASC LIMIT 1`: the first row with minimal
`created_at`. -/
def earliestCreated : List SubRow → Option SubRow
  | [] => none
  | r :: rs =>
    match earliestCreated rs with
    | none => some r
    | some r2 => if r2.createdAt < r.createdAt then some r2 else some r

/-- The service's triple query:
`SELECT … WHERE assignment_id = $1 AND student_id = $2 AND sha256 = $3
ORDER BY created_at ASC LIMIT 1`. -/
def findByTriple (st : DbState) (a s h : String) : Option SubRow :=
  earliestCreated (st.submissions.filter (fun r => tripleMatches r a s h))

/-- Does inserting `newRow` into `rows` violate a uniqueness constraint of
`app.submissions`?  The schema has the primary key on `submission_id`
(migration 001) and the unique index `submissions_unique_triplet` on
(`assignment_id`, `student_id`, `sha256`) (migration 003); either violation
raises Postgres error `23505`. -/
def insertConflicts (rows : List SubRow) (newRow : SubRow) : Bool :=
  rows.any (fun r =>
    r.id == newRow.id ||
    tripleMatches r newRow.assignmentId newRow.studentId newRow.sha256)

/-- `cacheDelByPrefix` from the cache-db module (`@core/cache/db`, staged in
`src/src/core/auth/verify.ts`): `DELETE FROM app.cache WHERE key LIKE $1`
with `$1 = prefix + "%"`, returning the number of rows deleted.  The one
prefix the service passes, `"courses:v1:"`, contains no SQL `LIKE` wildcard
(`%`, `_`) and no escape character, so the pattern deletes exactly the rows
whose key starts with the prefix. -/
def cacheDelByPrefix (pref : String) (cache : List (String × String)) :
    List (String × String) × Nat :=
  let remaining := cache.filter
    (fun kv => !(listStartsWith (strBytes pref) (strBytes kv.1)))
  (remaining, cache.length - remaining.length)

/-- Arguments of `SubmissionsService.createSubmission`. -/
structure CreateOpts where
  assignmentId : String
  studentId : String
  grade : Option String
  buf : List Nat
  mime : String
  originalName : Option String
  correlationId : Option String
  dataMode : Option String

/-- The fresh `app.submissions` row inserted by `createSubmission`. -/
def newSubRow (env : Env) (opts : CreateOpts) (contentSha storagePath : String) : SubRow :=
  { id := env.genId
    assignmentId := opts.assignmentId
    studentId := opts.studentId
    mime := opts.mime
    size := opts.buf.length
    sha256 := contentSha
    storagePath := storagePath
    status := "received"
    extractionStatus := (decideExtraction opts.mime opts.buf).extractionStatus
    ocrRequired := (decideExtraction opts.mime opts.buf).ocrRequired
    extractedText := (decideExtraction opts.mime opts.buf).extractedText
    correlationId := opts.correlationId
    createdAt := env.now }

/-- The `submission.created` event row the service appends. -/
def createdEvent (env : Env) (opts : CreateOpts) : EventRow :=
  ⟨env.genId, "submission.created",
    .created (opts.originalName.getD "editor.txt") opts.buf.length
      (opts.dataMode.getD "sandbox"),
    opts.correlationId⟩

/-- The `submission.parsed` follow-up event row. -/
def parsedEvent (env : Env) (opts : CreateOpts) : EventRow :=
  ⟨env.genId, "submission.parsed", .parsedStub, opts.correlationId⟩

/-- The `submission.ocr_pending` follow-up event row. -/
def ocrPendingEvent (env : Env) (opts : CreateOpts) : EventRow :=
  ⟨env.genId, "submission.ocr_pending", .ocrPending "image_or_scanned_pdf",
    opts.correlationId⟩

/-- State visible at this call's `INSERT` attempt: the original has been
written to the artifact store and the rows of concurrent winners (`race`)
have been committed. -/
def racedState (env : Env) (race : List SubRow) (st : DbState)
    (opts : CreateOpts) : DbState :=
  { st with
      artifacts := st.artifacts ++
        [⟨env.mkPath opts.grade opts.assignmentId env.genId (pickExt opts.mime),
          opts.buf⟩]
      submissions := st.submissions ++ race }

/-- `SubmissionsService.createSubmission`, as a state-passing function.
`race` holds submission rows committed by concurrent calls between this
call's idempotency pre-check and its own `INSERT` (§5: the pre-check is not
serialized; the uniqueness constraint is the serialization point).  The
returned state is the persistent state when the call returns or throws:

1. defensive size check (throws `413 too_large` before any write);
2. idempotency pre-check on the triple — on a hit, return the existing
   row's fields with no write of any kind;
3. save the original to the artifact store, classify, `INSERT`;
4. on a `23505` conflict, re-query the triple and defer to the winner,
   re-throwing when no row with the triple exists;
5. on a successful insert, append the `submission.created` event,
   invalidate the `courses:v1:` cache prefix, and append a follow-up
   `submission.parsed` / `submission.ocr_pending` event. -/
def createSubmission (env : Env) (race : List SubRow) (st : DbState)
    (opts : CreateOpts) : Except SvcError CreateResult × DbState :=
  if opts.buf.length > 10 * 1024 * 1024 then
    (.error .tooLarge, st)
  else
    let contentSha := env.hashFn opts.buf
    match findByTriple st opts.assignmentId opts.studentId contentSha with
    | some hit =>
      (.ok ⟨hit.id, "received", hit.extractionStatus, hit.ocrRequired⟩, st)
    | none =>
      let storagePath := env.mkPath opts.grade opts.assignmentId env.genId
        (pickExt opts.mime)
      let d := decideExtraction opts.mime opts.buf
      let st2 := racedState env race st opts
      let row := newSubRow env opts contentSha storagePath
      if insertConflicts st2.submissions row then
        match findByTriple st2 opts.assignmentId opts.studentId contentSha with
        | some hit =>
          (.ok ⟨hit.id, "received", hit.extractionStatus, hit.ocrRequired⟩, st2)
        | none => (.error .uniqueViolation, st2)
      else
        let st3 : DbState := { st2 with submissions := st2.submissions ++ [row] }
        let st4 : DbState := { st3 with events := st3.events ++ [createdEvent env opts] }
        let st5 : DbState :=
          { st4 with cache := (cacheDelByPrefix "courses:v1:" st4.cache).1 }
        let st6 : DbState :=
          if d.extractionStatus = "parsed" then
            { st5 with events := st5.events ++ [parsedEvent env opts] }
          else if d.ocrRequired then
            { st5 with events := st5.events ++ [ocrPendingEvent env opts] }
          else st5
        (.ok ⟨env.genId, "received", d.extractionStatus, d.ocrRequired⟩, st6)

/-- Stable insertion into a list sorted by `created_at` descending. -/
def insertByCreatedDesc (r : SubRow) : List SubRow → List SubRow
  | [] => [r]
  | x :: xs =>
    if r.createdAt ≤ x.createdAt then x :: insertByCreatedDesc r xs
    else r :: x :: xs

/-- `ORDER BY created_at DESC`. -/
def sortByCreatedDesc : List SubRow → List SubRow
  | [] => []
  | r :: rs => insertByCreatedDesc r (sortByCreatedDesc rs)

/-- `SubmissionsService.listSubmissions`: `ORDER BY created_at DESC`
with `LIMIT limit OFFSET offset`; `count` is the length of the returned
page (`rows.length`), not a table count. -/
def listSubmissions (st : DbState) (limit offset : Nat) : List SubRow × Nat :=
  let rows := ((sortByCreatedDesc st.submissions).drop offset).take limit
  (rows, rows.length)

/-! ### src/modules/submissions/controller.ts -/

/-- The event types migration 005 allows for newly written rows, i.e. the
check-constraint vocabulary minus the legacy value. -/
def allowedEventTypes : List String :=
  ["submission.created", "submission.updated", "submission.parsed",
    "submission.ocr_pending"]

/-- The deprecated legacy event type kept only for historical rows. -/
def legacyEventType : String := "submission.received"

/-- `String.prototype.trim()` (ASCII whitespace; the verified properties
only exercise ASCII). -/
def jsTrim (s : List Nat) : List Nat :=
  ((s.dropWhile isWsCode).reverse.dropWhile isWsCode).reverse

/-- `req.file` as populated by multer. -/
structure FileUpload where
  buffer : List Nat
  mimetype : String
  originalname : String
deriving Repr, DecidableEq

/-- The request fields `postSubmission` reads: `body.assignmentId`,
`body.studentId`, `req.file`, `body.editorText` (a `some` models
`typeof editorText === "string"`). -/
structure PostReq where
  assignmentId : Option (List Nat)
  studentId : Option (List Nat)
  file : Option FileUpload
  editorText : Option (List Nat)

/-- Content selection outcome of `postSubmission`: the service-call inputs. -/
structure PostArgs where
  assignmentId : List Nat
  studentId : List Nat
  buf : List Nat
  mime : String
  originalName : String
deriving Repr, DecidableEq

/-- Input validation and content-source selection of `postSubmission` in
`src/modules/submissions/controller.ts`: require non-empty trimmed ids;
prefer the multer file (its bytes, declared mime and original name),
fall back to `editorText` as utf8 `text/plain`, else 400 BadRequest
(`.error` models `sendError(…, 400, "BadRequest", …)`). -/
def postSubmissionParse (req : PostReq) : Except String PostArgs :=
  let assignmentId := jsTrim (req.assignmentId.getD [])
  let studentId := jsTrim (req.studentId.getD [])
  if assignmentId = [] ∨ studentId = [] then
    .error "assignmentId and studentId are required"
  else
    match req.file with
    | some f => .ok ⟨assignmentId, studentId, f.buffer, f.mimetype, f.originalname⟩
    | none =>
      match req.editorText with
      | some t => .ok ⟨assignmentId, studentId, t, "text/plain", "editor.txt"⟩
      | none => .error "Upload a file (file) or provide editorText."

/-- The `pageSize` computation of `listSubmissions` in the controller:
`Math.min(parseInt(String(req.query.pageSize ?? "20"), 10) || 20, 200)` —
`none` models an absent query value; `some 0` and NaN are falsy, so `|| 20`
replaces them. -/
def pageSizeOf (q : Option (List Nat)) : Int :=
  let s := q.getD (strBytes "20")
  let v : Int :=
    match jsParseInt s with
    | none => 20
    | some v => if v = 0 then 20 else v
  min v 200

/-- The `http` property of the errors `createSubmission` throws: the size
error carries `http: 413`; the re-thrown Postgres driver error has none
(the controller then answers 500). -/
def svcErrorHttp : SvcError → Option Nat
  | .tooLarge => some 413
  | .uniqueViolation => none

/-! ### Concrete sample data for evaluating the theorems -/

/-- Sample collaborators: hash every buffer to `"h1"`, generate id
`"sub_1"`, clock reading 5, storage path `assignmentId/submissionId ++ ext`. -/
def env0 : Env :=
  ⟨fun _ => "h1", "sub_1", 5, fun _ a i e => a ++ "/" ++ i ++ e⟩

/-- A pre-existing submission row for the triple (`a1`, `s1`, `h1`). -/
def row0 : SubRow :=
  ⟨"sub_0", "a1", "s1", "text/plain", 5, "h1", "a1/sub_0.txt", "received",
    "parsed", false, some "t", none, 3⟩

/-- A state already holding `row0` and two cache entries. -/
def st0 : DbState :=
  ⟨[row0], [], [], [("courses:v1:abc", "x"), ("other", "y")]⟩

/-- A state with no submissions and two cache entries. -/
def stEmpty : DbState :=
  ⟨[], [], [], [("courses:v1:abc", "x"), ("other", "y")]⟩

/-- A plain-text submission request for (`a1`, `s1`). -/
def opts0 : CreateOpts :=
  ⟨"a1", "s1", none, strBytes "hello", "text/plain", none, none, none⟩

/-- A row of a concurrent winner for the triple (`a1`, `s1`, `h1`). -/
def raceRow : SubRow :=
  ⟨"sub_9", "a1", "s1", "text/plain", 5, "h1", "p", "received", "parsed",
    false, none, none, 4⟩

/-- A row whose id equals `env0.genId` but whose triple differs from any
triple hashed by `env0` — triggers a primary-key `23505` whose re-query
finds nothing. -/
def rowClash : SubRow :=
  ⟨"sub_1", "a9", "s9", "text/plain", 5, "h9", "p", "received", "parsed",
    false, none, none, 3⟩

/-- A state holding only `rowClash`. -/
def stClash : DbState := ⟨[rowClash], [], [], []⟩

/-- A request one byte over the 10 MB bound. -/
def optsTooBig : CreateOpts :=
  ⟨"a1", "s1", none, List.replicate (10 * 1024 * 1024 + 1) 0, "text/plain",
    none, none, none⟩

/-- A request of exactly 10,485,760 bytes. -/
def optsMax : CreateOpts :=
  ⟨"a1", "s1", none, List.replicate (10 * 1024 * 1024) 0, "text/plain",
    none, none, none⟩

/-- The raced state reached by `createSubmission env0 [raceRow] stEmpty
opts0` at its insert attempt: the orphan artifact is written and the
concurrent winner's row is visible. -/
def stRaced : DbState :=
  { stEmpty with
      submissions := [raceRow]
      artifacts := [⟨"a1/sub_1.txt", strBytes "hello"⟩] }

/-- A sample file upload for the controller model. -/
def fileUp : FileUpload := ⟨strBytes "PDFBYTES", "application/pdf", "a.pdf"⟩

/-! ## Helper lemmas -/

theorem earliestCreated_mem (l : List SubRow) (r : SubRow)
    (h : earliestCreated l = some r) : r ∈ l := by
  induction l with
  | nil => simp [earliestCreated] at h
  | cons x xs ih =>
    rw [earliestCreated] at h
    cases hx : earliestCreated xs with
    | none =>
      rw [hx] at h
      have h' : some x = some r := h
      injection h' with h'
      simp [h'.symm]
    | some r2 =>
      rw [hx] at h
      have h' : (if r2.createdAt < x.createdAt then some r2 else some x) = some r := h
      by_cases hlt : r2.createdAt < x.createdAt
      · rw [if_pos hlt] at h'
        injection h' with h'
        exact List.mem_cons_of_mem _ (ih (h' ▸ hx))
      · rw [if_neg hlt] at h'
        injection h' with h'
        simp [h'.symm]

theorem earliestCreated_cons_isSome (x : SubRow) (xs : List SubRow) :
    ∃ r, earliestCreated (x :: xs) = some r := by
  rw [earliestCreated]
  cases hx : earliestCreated xs with
  | none => exact ⟨x, rfl⟩
  | some r2 =>
    by_cases hlt : r2.createdAt < x.createdAt
    · exact ⟨r2, if_pos hlt⟩
    · exact ⟨x, if_neg hlt⟩

theorem findByTriple_some_spec (st : DbState) (a s h : String) (r : SubRow)
    (hf : findByTriple st a s h = some r) :
    r ∈ st.submissions ∧ tripleMatches r a s h = true := by
  unfold findByTriple at hf
  have hmem := earliestCreated_mem _ _ hf
  rw [List.mem_filter] at hmem
  exact ⟨hmem.1, hmem.2⟩

theorem findByTriple_isSome_of (st : DbState) (a s h : String) (r : SubRow)
    (hr : r ∈ st.submissions) (hm : tripleMatches r a s h = true) :
    ∃ hit, findByTriple st a s h = some hit := by
  unfold findByTriple
  cases hfl : st.submissions.filter (fun r => tripleMatches r a s h) with
  | nil =>
    exfalso
    have : r ∈ st.submissions.filter (fun r => tripleMatches r a s h) :=
      List.mem_filter.2 ⟨hr, hm⟩
    rw [hfl] at this
    simp at this
  | cons x xs => exact earliestCreated_cons_isSome x xs

/-! ## Claims -/

/-- C1: a call whose (assignmentId, studentId, sha256) triple already has a
submission row returns that row's `{submissionId, extractionStatus,
ocrRequired}` with status `"received"`, and leaves the entire state
untouched: no artifact-store write, no event append, no cache
invalidation. -/
theorem claim_C1 (env : Env) (race : List SubRow) (st : DbState) (opts : CreateOpts)
    (hsize : opts.buf.length ≤ 10485760)
    (r : SubRow) (hr : r ∈ st.submissions)
    (hm : tripleMatches r opts.assignmentId opts.studentId (env.hashFn opts.buf) = true) :
    ∃ hit, hit ∈ st.submissions ∧
      tripleMatches hit opts.assignmentId opts.studentId (env.hashFn opts.buf) = true ∧
      createSubmission env race st opts =
        (.ok ⟨hit.id, "received", hit.extractionStatus, hit.ocrRequired⟩, st) := by
  obtain ⟨hit, hf⟩ := findByTriple_isSome_of st _ _ _ r hr hm
  obtain ⟨hmem, hmat⟩ := findByTriple_some_spec _ _ _ _ _ hf
  have hng : ¬ (opts.buf.length > 10 * 1024 * 1024) := by omega
  refine ⟨hit, hmem, hmat, ?_⟩
  simp [createSubmission, hng, hf]

/-- C1 witness: with `env0`, state `st0` (holding `row0` for the triple) and
request `opts0`, the call returns `row0`'s fields and the state is
unchanged. -/
theorem claim_C1_witness :
    ∃ hit, hit ∈ st0.submissions ∧
      tripleMatches hit opts0.assignmentId opts0.studentId (env0.hashFn opts0.buf) = true ∧
      createSubmission env0 [] st0 opts0 =
        (.ok ⟨hit.id, "received", hit.extractionStatus, hit.ocrRequired⟩, st0) :=
  claim_C1 env0 [] st0 opts0 (by decide) row0 (by decide) (by decide)

/-- C3: a payload strictly larger than 10,485,760 bytes is rejected with the
`413 too_large` error and the state is returned untouched (no storage
write, no insert); a payload of exactly 10,485,760 bytes is never rejected
as too large. -/
theorem claim_C3 :
    (∀ (env : Env) (race : List SubRow) (st : DbState) (opts : CreateOpts),
       opts.buf.length > 10485760 →
       createSubmission env race st opts = (.error .tooLarge, st)) ∧
    (∀ (env : Env) (race : List SubRow) (st : DbState) (opts : CreateOpts),
       opts.buf.length = 10485760 →
       (createSubmission env race st opts).1 ≠ .error .tooLarge) ∧
    svcErrorHttp .tooLarge = some 413 := by
  refine ⟨?_, ?_, rfl⟩
  · intro env race st opts h
    have hg : opts.buf.length > 10 * 1024 * 1024 := by omega
    simp [createSubmission, hg]
  · intro env race st opts h
    have hng : ¬ (opts.buf.length > 10 * 1024 * 1024) := by omega
    simp only [createSubmission]
    rw [if_neg hng]
    cases hf : findByTriple st opts.assignmentId opts.studentId (env.hashFn opts.buf) with
    | some hit => simp
    | none =>
      simp only []
      split
      · split <;> simp
      · simp

/-- The oversized sample payload is one byte over the bound. -/
theorem optsTooBig_len : optsTooBig.buf.length = 10485761 := by
  show (List.replicate (10 * 1024 * 1024 + 1) (0 : Nat)).length = 10485761
  rw [List.length_replicate]

/-- The maximal sample payload sits exactly on the bound. -/
theorem optsMax_len : optsMax.buf.length = 10485760 := by
  show (List.replicate (10 * 1024 * 1024) (0 : Nat)).length = 10485760
  rw [List.length_replicate]

/-- C3 witness: a 10,485,761-byte payload is rejected with state unchanged;
a 10,485,760-byte payload is not rejected as too large. -/
theorem claim_C3_witness :
    createSubmission env0 [] stEmpty optsTooBig = (.error .tooLarge, stEmpty) ∧
    (createSubmission env0 [] stEmpty optsMax).1 ≠ .error .tooLarge :=
  ⟨claim_C3.1 env0 [] stEmpty optsTooBig (by rw [optsTooBig_len]; omega),
   claim_C3.2.1 env0 [] stEmpty optsMax (by rw [optsMax_len])⟩

/-- C4: `decideExtraction` is a pure function; `text/plain` yields parsed
with a non-null stub, `image/jpeg` and `image/png` yield pending_ocr with
OCR required and null text, and any mime outside the handled cases falls
back to pending_ocr with OCR required and null text. -/
theorem claim_C4 (buf : List Nat) :
    decideExtraction "text/plain" buf =
      ⟨false, "parsed", some "[stub] Extracted text from document"⟩ ∧
    decideExtraction "image/jpeg" buf = ⟨true, "pending_ocr", none⟩ ∧
    decideExtraction "image/png" buf = ⟨true, "pending_ocr", none⟩ ∧
    (∀ mime, mime ≠ "image/jpeg" → mime ≠ "image/png" →
      mime ≠ "application/pdf" →
      mime ≠ "application/vnd.openxmlformats-officedocument.wordprocessingml.document" →
      mime ≠ "text/plain" →
      decideExtraction mime buf = ⟨true, "pending_ocr", none⟩) := by
  refine ⟨by simp [decideExtraction], by simp [decideExtraction],
    by simp [decideExtraction], ?_⟩
  intro mime h1 h2 h3 h4 h5
  simp [decideExtraction, h1, h2, h3, h4, h5]

/-- C4 witness: an unhandled mime type falls back to pending_ocr. -/
theorem claim_C4_witness :
    decideExtraction "application/zip" (strBytes "PK") = ⟨true, "pending_ocr", none⟩ :=
  (claim_C4 (strBytes "PK")).2.2.2 "application/zip"
    (by decide) (by decide) (by decide) (by decide) (by decide)

/-- C8 (code bug): the controller computes
`Math.min(parseInt(pageSize, 10) || 20, 200)` with no lower clamp, so
`pageSize=-5` reaches the service as limit `-5`, violating the documented
clamp to `[1, 200]`; the default, the non-numeric fallback and the upper
clamp do behave as documented. -/
theorem claim_C8_code_bug :
    pageSizeOf (some (strBytes "-5")) = -5 ∧
    pageSizeOf (some (strBytes "-5")) < 1 ∧
    pageSizeOf none = 20 ∧
    pageSizeOf (some (strBytes "999")) = 200 ∧
    pageSizeOf (some (strBytes "abc")) = 20 := by
  decide

/-- C9: when both a multer file and an `editorText` string are supplied, the
request is accepted and the file's bytes, mime and original name are used,
`editorText` being ignored (the outcome equals the file-only outcome);
`editorText` alone is accepted as `text/plain`; only when neither source is
present does the controller answer 400 BadRequest. -/
theorem claim_C9 (aId sId : List Nat) (f : FileUpload) (t : List Nat)
    (ha : jsTrim aId ≠ []) (hs : jsTrim sId ≠ []) :
    postSubmissionParse ⟨some aId, some sId, some f, some t⟩ =
      .ok ⟨jsTrim aId, jsTrim sId, f.buffer, f.mimetype, f.originalname⟩ ∧
    postSubmissionParse ⟨some aId, some sId, some f, none⟩ =
      .ok ⟨jsTrim aId, jsTrim sId, f.buffer, f.mimetype, f.originalname⟩ ∧
    postSubmissionParse ⟨some aId, some sId, none, some t⟩ =
      .ok ⟨jsTrim aId, jsTrim sId, t, "text/plain", "editor.txt"⟩ ∧
    postSubmissionParse ⟨some aId, some sId, none, none⟩ =
      .error "Upload a file (file) or provide editorText." := by
  refine ⟨?_, ?_, ?_, ?_⟩ <;> simp [postSubmissionParse, ha, hs]

/-- C9 witness: both sources supplied → the PDF file wins and `editorText`
is ignored. -/
theorem claim_C9_witness :
    postSubmissionParse ⟨some (strBytes "a1"), some (strBytes "s1"), some fileUp,
        some (strBytes "hello")⟩ =
      .ok ⟨strBytes "a1", strBytes "s1", fileUp.buffer, fileUp.mimetype,
        fileUp.originalname⟩ :=
  (claim_C9 (strBytes "a1") (strBytes "s1") fileUp (strBytes "hello")
    (by decide) (by decide)).1

/-- C10: `listSubmissions` returns `count = rows.length`, the length of the
returned page, which never exceeds the requested limit. -/
theorem claim_C10 (st : DbState) (limit offset : Nat) :
    (listSubmissions st limit offset).2 = (listSubmissions st limit offset).1.length ∧
    (listSubmissions st limit offset).2 ≤ limit := by
  constructor
  · rfl
  · simp [listSubmissions]

/-- In a created-first event batch, whatever decomposition exhibits a
non-`created` event has the `created` event for the same submission in the
part before it. -/
theorem createdFirst_order (c : EventRow) (rest : List EventRow)
    (hc : c.eventType = "submission.created")
    (hsub : ∀ e ∈ rest, e.submissionId = c.submissionId) :
    ∀ pre e post, c :: rest = pre ++ e :: post →
      e.eventType ≠ "submission.created" →
      ∃ cc ∈ pre, cc.eventType = "submission.created" ∧
        cc.submissionId = e.submissionId := by
  intro pre e post heq hne
  cases pre with
  | nil =>
    simp only [List.nil_append, List.cons.injEq] at heq
    exact absurd (heq.1 ▸ hc) hne
  | cons p ps =>
    simp only [List.cons_append, List.cons.injEq] at heq
    have he : e ∈ rest := by
      rw [heq.2]
      exact List.mem_append_right _ (List.mem_cons_self _ _)
    exact ⟨c, by simp [heq.1], hc, (hsub e he).symm⟩

/-- C6: every event the service appends has an event type in the migration
005 vocabulary for new rows (`submission.created`, `submission.updated`,
`submission.parsed`, `submission.ocr_pending`), never the deprecated legacy
value `submission.received`; and in the appended batch any
`submission.parsed` / `submission.ocr_pending` event is preceded by the
`submission.created` event of the same submission. -/
theorem claim_C6 (env : Env) (race : List SubRow) (st : DbState) (opts : CreateOpts) :
    ∃ newEvts,
      (createSubmission env race st opts).2.events = st.events ++ newEvts ∧
      (∀ e ∈ newEvts, e.eventType ∈ allowedEventTypes ∧ e.eventType ≠ legacyEventType) ∧
      (∀ pre e post, newEvts = pre ++ e :: post →
        (e.eventType = "submission.parsed" ∨ e.eventType = "submission.ocr_pending") →
        ∃ cc ∈ pre, cc.eventType = "submission.created" ∧
          cc.submissionId = e.submissionId) := by
  by_cases hsize : opts.buf.length > 10 * 1024 * 1024
  · refine ⟨[], by simp [createSubmission, hsize], by simp, ?_⟩
    intro pre e post h _
    exact absurd h (by simp)
  · cases hf : findByTriple st opts.assignmentId opts.studentId (env.hashFn opts.buf) with
    | some hit =>
      refine ⟨[], by simp [createSubmission, hsize, hf], by simp, ?_⟩
      intro pre e post h _
      exact absurd h (by simp)
    | none =>
      simp only [createSubmission, hsize, if_false, hf]
      split
      · split
        · refine ⟨[], by simp [racedState], by simp, ?_⟩
          intro pre e post h _
          exact absurd h (by simp)
        · refine ⟨[], by simp [racedState], by simp, ?_⟩
          intro pre e post h _
          exact absurd h (by simp)
      · split
        · refine ⟨[createdEvent env opts, parsedEvent env opts], ?_, ?_, ?_⟩
          · simp [racedState]
          · simp [createdEvent, parsedEvent, allowedEventTypes, legacyEventType]
          · intro pre e post heq htype
            refine createdFirst_order (createdEvent env opts) [parsedEvent env opts]
              rfl ?_ pre e post heq ?_
            · intro e he; simp [parsedEvent, createdEvent] at he ⊢; simp [he]
            · rcases htype with h | h <;> simp [h]
        · split
          · refine ⟨[createdEvent env opts, ocrPendingEvent env opts], ?_, ?_, ?_⟩
            · simp [racedState]
            · simp [createdEvent, ocrPendingEvent, allowedEventTypes, legacyEventType]
            · intro pre e post heq htype
              refine createdFirst_order (createdEvent env opts) [ocrPendingEvent env opts]
                rfl ?_ pre e post heq ?_
              · intro e he; simp [ocrPendingEvent, createdEvent] at he ⊢; simp [he]
              · rcases htype with h | h <;> simp [h]
          · refine ⟨[createdEvent env opts], ?_, ?_, ?_⟩
            · simp [racedState]
            · simp [createdEvent, allowedEventTypes, legacyEventType]
            · intro pre e post heq htype
              refine createdFirst_order (createdEvent env opts) []
                rfl ?_ pre e post heq ?_
              · intro e he; simp at he
              · rcases htype with h | h <;> simp [h]

/-- C6 witness: a concrete fresh text submission appends only vocabulary
events with `submission.created` first. -/
theorem claim_C6_witness :
    ∃ newEvts,
      (createSubmission env0 [] stEmpty opts0).2.events = stEmpty.events ++ newEvts ∧
      (∀ e ∈ newEvts, e.eventType ∈ allowedEventTypes ∧ e.eventType ≠ legacyEventType) ∧
      (∀ pre e post, newEvts = pre ++ e :: post →
        (e.eventType = "submission.parsed" ∨ e.eventType = "submission.ocr_pending") →
        ∃ cc ∈ pre, cc.eventType = "submission.created" ∧
          cc.submissionId = e.submissionId) :=
  claim_C6 env0 [] stEmpty opts0

/-- C2 (amended): when the insert hits a uniqueness conflict (Postgres
`23505`), the service re-queries the (assignmentId, studentId, contentHash)
triple; whenever a row with that triple exists — always the case when the
conflict is on the triple constraint — it returns the winner's
`{submissionId, extractionStatus, ocrRequired}` with success semantics, so
a triple conflict is never surfaced; when no triple row exists (a `23505`
from the submission-id primary key alone), the error is re-thrown. -/
theorem claim_C2 (env : Env) (race : List SubRow) (st : DbState) (opts : CreateOpts)
    (hsize : opts.buf.length ≤ 10485760)
    (hmiss : findByTriple st opts.assignmentId opts.studentId (env.hashFn opts.buf) = none)
    (hconf : insertConflicts (racedState env race st opts).submissions
        (newSubRow env opts (env.hashFn opts.buf)
          (env.mkPath opts.grade opts.assignmentId env.genId (pickExt opts.mime))) = true) :
    (∀ hit, findByTriple (racedState env race st opts) opts.assignmentId opts.studentId
        (env.hashFn opts.buf) = some hit →
      createSubmission env race st opts =
        (.ok ⟨hit.id, "received", hit.extractionStatus, hit.ocrRequired⟩,
          racedState env race st opts)) ∧
    (findByTriple (racedState env race st opts) opts.assignmentId opts.studentId
        (env.hashFn opts.buf) = none →
      createSubmission env race st opts =
        (.error .uniqueViolation, racedState env race st opts)) := by
  have hng : ¬ (opts.buf.length > 10 * 1024 * 1024) := by omega
  constructor
  · intro hit hfr
    simp [createSubmission, hng, hmiss, hconf, hfr]
  · intro hfr
    simp [createSubmission, hng, hmiss, hconf, hfr]

/-- C2 counterexample: in a state holding a row whose id equals the id this
call generates but whose triple differs, the insert fails with a uniqueness
conflict, the triple re-query finds nothing, and the `23505` IS surfaced to
the caller — refuting "a uniqueness conflict is never surfaced to the
caller as an error". -/
theorem claim_C2_counterexample :
    insertConflicts (racedState env0 [] stClash opts0).submissions
      (newSubRow env0 opts0 (env0.hashFn opts0.buf)
        (env0.mkPath opts0.grade opts0.assignmentId env0.genId (pickExt opts0.mime))) = true ∧
    (createSubmission env0 [] stClash opts0).1 = .error .uniqueViolation := by
  exact ⟨rfl, rfl⟩

/-- C2 witness: a concurrent winner for the same triple landed before this
call's insert; the loser returns the winner's row as its own success. -/
theorem claim_C2_witness :
    createSubmission env0 [raceRow] stEmpty opts0 =
      (.ok ⟨"sub_9", "received", "parsed", false⟩, stRaced) :=
  (claim_C2 env0 [raceRow] stEmpty opts0 (by decide) rfl rfl).1 raceRow rfl

/-- The `BT` pattern is the byte pair 66, 84. -/
theorem btPat_eq : btPat = [66, 84] := by decide

/-- The `ET` pattern is the byte pair 69, 84. -/
theorem etPat_eq : etPat = [69, 84] := by decide

/-- `listStartsWith` decides the existence of a completing suffix. -/
theorem listStartsWith_iff (p : List Nat) : ∀ s, listStartsWith p s = true ↔ ∃ r, s = p ++ r := by
  induction p with
  | nil => intro s; simp [listStartsWith]
  | cons a ps ih =>
    intro s
    cases s with
    | nil => simp [listStartsWith]
    | cons c cs =>
      simp only [listStartsWith, Bool.and_eq_true, beq_iff_eq, ih, List.cons_append,
        List.cons.injEq]
      constructor
      · rintro ⟨h1, r, h2⟩
        exact ⟨r, h1.symm, h2⟩
      · rintro ⟨r, h1, h2⟩
        exact ⟨h1.symm, r, h2⟩

/-- `containsSeq` decides the existence of a contiguous occurrence. -/
theorem containsSeq_iff (p : List Nat) : ∀ s, containsSeq p s = true ↔ ∃ l r, s = l ++ p ++ r := by
  intro s
  induction s with
  | nil =>
    simp only [containsSeq, listStartsWith_iff]
    constructor
    · rintro ⟨r, h⟩
      exact ⟨[], r, by simp [← h]⟩
    · rintro ⟨l, r, h⟩
      have h' := h.symm
      simp only [List.append_assoc, List.append_eq_nil] at h'
      exact ⟨[], by simp [h'.1, h'.2.1, h'.2.2]⟩
  | cons c cs ih =>
    simp only [containsSeq, Bool.or_eq_true, listStartsWith_iff, ih]
    constructor
    · rintro (⟨r, h⟩ | ⟨l, r, h⟩)
      · exact ⟨[], r, by simp [h]⟩
      · exact ⟨c :: l, r, by simp [h]⟩
    · rintro ⟨l, r, h⟩
      cases l with
      | nil => exact .inl ⟨r, by simpa using h⟩
      | cons x xs =>
        simp only [List.cons_append, List.cons.injEq] at h
        exact .inr ⟨xs, r, h.2⟩

/-- `btEtScan` decides the existence of a `BT` … `ET` span with a
non-empty body. -/
theorem btEtScan_iff : ∀ s, btEtScan s = true ↔
    ∃ l mid r, mid ≠ [] ∧ s = l ++ btPat ++ mid ++ etPat ++ r := by
  intro s
  induction s with
  | nil =>
    simp only [btEtScan]
    constructor
    · intro h; exact absurd h (by simp)
    · rintro ⟨l, mid, r, hm, h⟩
      have := congrArg List.length h
      simp [btPat_eq, etPat_eq] at this
      exact absurd this (by omega)
  | cons c cs ih =>
    rw [btEtScan]
    constructor
    · intro h
      rw [Bool.or_eq_true, Bool.and_eq_true] at h
      rcases h with ⟨hbt, het⟩ | h2
      ·
        obtain ⟨r0, hr0⟩ := (listStartsWith_iff _ _).1 hbt
        rw [btPat_eq] at hr0
        simp only [List.cons_append, List.nil_append, List.cons.injEq] at hr0
        obtain ⟨hc, hcs⟩ := hr0
        obtain ⟨l2, r2, h2'⟩ := (containsSeq_iff _ _).1 het
        rw [hcs] at h2'
        cases r0 with
        | nil =>
          simp only [List.drop] at h2'
          have := congrArg List.length h2'
          simp [etPat_eq] at this
          exact absurd this (by omega)
        | cons x r0' =>
          simp only [List.drop] at h2'
          refine ⟨[], x :: l2, r2, by simp, ?_⟩
          simp [btPat_eq, hc, hcs, h2']
      · obtain ⟨l, mid, r, hm, hn⟩ := ih.1 h2
        exact ⟨c :: l, mid, r, hm, by simp [hn]⟩
    · rintro ⟨l, mid, r, hm, hs⟩
      rw [Bool.or_eq_true]
      cases l with
      | nil =>
        rw [btPat_eq, etPat_eq] at hs
        simp only [List.nil_append, List.cons_append, List.cons.injEq] at hs
        obtain ⟨hc, hcs⟩ := hs
        left
        rw [Bool.and_eq_true]
        constructor
        · apply (listStartsWith_iff _ _).2
          exact ⟨mid ++ etPat ++ r, by simp [btPat_eq, etPat_eq, hc, hcs]⟩
        · cases mid with
          | nil => exact absurd rfl hm
          | cons m0 mid' =>
            apply (containsSeq_iff _ _).2
            refine ⟨mid', r, ?_⟩
            rw [etPat_eq]
            simp [hcs]
      | cons x xs =>
        simp only [List.cons_append, List.cons.injEq] at hs
        right
        exact ih.2 ⟨xs, mid, r, hm, hs.2⟩

/-- The heuristic scanner answers exactly the declarative marker condition
on the first `min(length, 2 MB)` bytes. -/
theorem pdfLikelyHasTextLayer_iff (buf : List Nat) :
    pdfLikelyHasTextLayer buf = true ↔
      HasTextLayerMarker (buf.take (Nat.min buf.length (2 * 1024 * 1024))) := by
  unfold pdfLikelyHasTextLayer HasTextLayerMarker
  simp only [Bool.or_eq_true, containsSeq_iff, btEtScan_iff]
  exact or_assoc

/-- C5: `pdfLikelyHasTextLayer` inspects only the first
`min(length, 2*1024*1024)` bytes and returns true exactly when that prefix
contains `/Font`, `/ToUnicode`, or a `BT` … `ET` span; for
`application/pdf`, a true result classifies the submission as parsed with
the placeholder text and a false result as pending_ocr requiring OCR. -/
theorem claim_C5 (buf : List Nat) :
    (pdfLikelyHasTextLayer buf = true ↔
      HasTextLayerMarker (buf.take (Nat.min buf.length (2 * 1024 * 1024)))) ∧
    (pdfLikelyHasTextLayer buf = true →
      decideExtraction "application/pdf" buf =
        ⟨false, "parsed", some "[stub] Extracted text from PDF"⟩) ∧
    (pdfLikelyHasTextLayer buf = false →
      decideExtraction "application/pdf" buf = ⟨true, "pending_ocr", none⟩) := by
  refine ⟨pdfLikelyHasTextLayer_iff buf, ?_, ?_⟩ <;> intro h <;> simp [decideExtraction, h]

/-- C5 witness: a PDF body with a `BT` … `ET` span is parsed; one without
markers needs OCR. -/
theorem claim_C5_witness :
    decideExtraction "application/pdf" (strBytes "BTxET") =
      ⟨false, "parsed", some "[stub] Extracted text from PDF"⟩ ∧
    decideExtraction "application/pdf" (strBytes "scan") =
      ⟨true, "pending_ocr", none⟩ :=
  ⟨(claim_C5 (strBytes "BTxET")).2.1 (by decide),
   (claim_C5 (strBytes "scan")).2.2 (by decide)⟩

/-- Decoding inverts encoding on the base64url alphabet. -/
theorem charToSextet_sextetToChar : ∀ s, s < 64 → charToSextet (sextetToChar s) = some s := by
  decide

/-- Valid sextets survive the encode/decode character mapping. -/
theorem filterMap_sextetToChar (l : List Nat) (h : ∀ s ∈ l, s < 64) :
    (l.map sextetToChar).filterMap charToSextet = l := by
  induction l with
  | nil => rfl
  | cons x xs ih =>
    simp only [List.map_cons, List.filterMap_cons]
    rw [charToSextet_sextetToChar x (h x (by simp))]
    simp [ih (fun s hs => h s (by simp [hs]))]

/-- Every sextet produced from in-range bytes is in range. -/
theorem encodeGroups_lt : ∀ (bytes : List Nat), (∀ b ∈ bytes, b < 256) →
    ∀ s ∈ b64EncodeGroups bytes, s < 64
  | [], _, s, hs => by simp [b64EncodeGroups] at hs
  | [a], h, s, hs => by
    have ha := h a (by simp)
    simp [b64EncodeGroups] at hs
    rcases hs with h1 | h1 <;> omega
  | [a, b], h, s, hs => by
    have ha := h a (by simp)
    have hb := h b (by simp)
    simp [b64EncodeGroups] at hs
    rcases hs with h1 | h1 | h1 <;> omega
  | a :: b :: c :: rest, h, s, hs => by
    have ha := h a (by simp)
    have hb := h b (by simp)
    have hc := h c (by simp)
    simp only [b64EncodeGroups, List.mem_cons] at hs
    rcases hs with h1 | h1 | h1 | h1 | h1
    · omega
    · omega
    · omega
    · omega
    · exact encodeGroups_lt rest (fun x hx => h x (by simp at hx ⊢; tauto)) s h1

/-- Unpacking inverts packing of in-range bytes. -/
theorem decodeGroups_encodeGroups : ∀ (bytes : List Nat), (∀ b ∈ bytes, b < 256) →
    b64DecodeGroups (b64EncodeGroups bytes) = bytes
  | [], _ => rfl
  | [a], h => by
    have ha := h a (by simp)
    simp only [b64EncodeGroups, b64DecodeGroups, List.cons.injEq, and_true]
    omega
  | [a, b], h => by
    have ha := h a (by simp)
    have hb := h b (by simp)
    simp only [b64EncodeGroups, b64DecodeGroups, List.cons.injEq, and_true]
    constructor <;> omega
  | a :: b :: c :: rest, h => by
    have ha := h a (by simp)
    have hb := h b (by simp)
    have hc := h c (by simp)
    have ih := decodeGroups_encodeGroups rest (fun x hx => h x (by simp at hx ⊢; tauto))
    simp only [b64EncodeGroups, b64DecodeGroups, List.cons.injEq]
    exact ⟨by omega, by omega, by omega, ih⟩

/-- Node base64url round trip on in-range bytes. -/
theorem b64url_roundtrip (bytes : List Nat) (h : ∀ b ∈ bytes, b < 256) :
    b64urlDecode (b64urlEncode bytes) = bytes := by
  unfold b64urlEncode b64urlDecode
  rw [filterMap_sextetToChar _ (encodeGroups_lt bytes h)]
  exact decodeGroups_encodeGroups bytes h

/-- Decimal digits are below 10. -/
theorem decDigitsRev_lt10 (n : Nat) : ∀ d ∈ decDigitsRev n, d < 10 := by
  induction n using Nat.strong_induction_on with
  | _ n ih =>
    by_cases h10 : n < 10
    · rw [decDigitsRev, if_pos h10]
      intro d hd
      simp at hd
      omega
    · rw [decDigitsRev, if_neg h10]
      intro d hd
      rcases List.mem_cons.1 hd with h1 | h1
      · omega
      · exact ih (n / 10) (by omega) d h1

/-- The digit list is never empty. -/
theorem decDigitsRev_ne_nil (n : Nat) : decDigitsRev n ≠ [] := by
  rw [decDigitsRev]
  split <;> simp

/-- Folding the most-significant-first digits recovers the number. -/
theorem foldl_decDigitsRev (n : Nat) : ∀ acc : Nat,
    List.foldl (fun a d => a * 10 + d) acc (decDigitsRev n).reverse =
      acc * 10 ^ (decDigitsRev n).length + n := by
  induction n using Nat.strong_induction_on with
  | _ n ih =>
    intro acc
    by_cases h10 : n < 10
    · rw [decDigitsRev, if_pos h10]
      simp
    · rw [decDigitsRev, if_neg h10]
      simp only [List.reverse_cons, List.foldl_append, List.length_cons]
      rw [ih (n / 10) (by omega) acc]
      simp only [List.foldl_cons, List.foldl_nil]
      rw [pow_succ]
      have hn : n / 10 * 10 + n % 10 = n := by omega
      calc (acc * 10 ^ (decDigitsRev (n / 10)).length + n / 10) * 10 + n % 10
          = acc * (10 ^ (decDigitsRev (n / 10)).length * 10) +
            (n / 10 * 10 + n % 10) := by ring
        _ = acc * (10 ^ (decDigitsRev (n / 10)).length * 10) + n := by rw [hn]

/-- Character codes of a decimal representation lie in 48..57. -/
theorem decRepr_codes (n : Nat) : ∀ c ∈ decRepr n, 48 ≤ c ∧ c ≤ 57 := by
  intro c hc
  simp only [decRepr, List.mem_map, List.mem_reverse] at hc
  obtain ⟨d, hd, rfl⟩ := hc
  have := decDigitsRev_lt10 n d hd
  omega

/-- The decimal representation is never empty. -/
theorem decRepr_ne_nil (n : Nat) : decRepr n ≠ [] := by
  simp [decRepr, decDigitsRev_ne_nil n]

/-- A predicate holding everywhere makes `takeWhile` the identity. -/
theorem takeWhile_all {p : Nat → Bool} : ∀ (l : List Nat), (∀ x ∈ l, p x = true) →
    l.takeWhile p = l
  | [], _ => rfl
  | x :: xs, h => by
    rw [List.takeWhile_cons, h x (by simp)]
    simp [takeWhile_all xs (fun y hy => h y (by simp [hy]))]

/-- Parsing the digit run of a decimal representation recovers the
number. -/
theorem digitsLeadVal_decRepr (n : Nat) : digitsLeadVal (decRepr n) = some n := by
  unfold digitsLeadVal
  rw [takeWhile_all (decRepr n) (fun c hc => by
    have := decRepr_codes n c hc
    simp [isDigitCode]
    omega)]
  rw [if_neg (decRepr_ne_nil n)]
  congr 1
  unfold decRepr
  rw [List.foldl_map]
  simp only [Nat.add_sub_cancel]
  rw [foldl_decDigitsRev n 0]
  simp

/-- `parseInt` recovers a number from its decimal representation. -/
theorem jsParseInt_decRepr (n : Nat) : jsParseInt (decRepr n) = some (Int.ofNat n) := by
  cases hd : decRepr n with
  | nil => exact absurd hd (decRepr_ne_nil n)
  | cons c cs =>
    have hc := decRepr_codes n c (by rw [hd]; exact List.mem_cons_self _ _)
    have hws : isWsCode c = false := by
      simp [isWsCode]
      omega
    have h43 : ¬ c = 43 := by omega
    have h45 : ¬ c = 45 := by omega
    simp only [jsParseInt, hd, List.dropWhile_cons, hws, Bool.false_eq_true,
      if_false, h43, h45]
    rw [← hd, digitsLeadVal_decRepr]
    rfl

/-- Encoding a non-empty byte list yields at least one sextet. -/
theorem encodeGroups_ne_nil : ∀ (bytes : List Nat), bytes ≠ [] → b64EncodeGroups bytes ≠ []
  | [], h => absurd rfl h
  | [_], _ => by simp [b64EncodeGroups]
  | [_, _], _ => by simp [b64EncodeGroups]
  | _ :: _ :: _ :: _, _ => by simp [b64EncodeGroups]

/-- Decimal character codes are valid byte values. -/
theorem decRepr_lt256 (n : Nat) : ∀ b ∈ decRepr n, b < 256 := by
  intro b hb
  have := decRepr_codes n b hb
  omega

/-- An encoded cursor is never the empty string. -/
theorem encodeCursor_ne_nil (n : Nat) : encodeCursor n ≠ [] := by
  unfold encodeCursor b64urlEncode
  simp only [ne_eq, List.map_eq_nil_iff]
  exact encodeGroups_ne_nil _ (decRepr_ne_nil n)

/-- C7: decoding the encoding of any non-negative integer returns that
integer; an absent cursor decodes to 0; and a malformed cursor — one whose
base64url payload does not `parseInt` to a non-negative number — decodes
to 0. -/
theorem claim_C7 :
    (∀ n : Nat, decodeCursor (some (encodeCursor n)) = n) ∧
    decodeCursor none = 0 ∧
    (∀ c, jsParseInt (b64urlDecode c) = none → decodeCursor (some c) = 0) ∧
    (∀ c v, jsParseInt (b64urlDecode c) = some v → v < 0 → decodeCursor (some c) = 0) := by
  refine ⟨?_, rfl, ?_, ?_⟩
  · intro n
    simp only [decodeCursor]
    rw [if_neg (encodeCursor_ne_nil n)]
    rw [encodeCursor, b64url_roundtrip _ (decRepr_lt256 n), jsParseInt_decRepr]
    simp
  · intro c h
    simp only [decodeCursor]
    by_cases hc : c = []
    · simp [hc]
    · rw [if_neg hc]
      simp only [h]
  · intro c v h hv
    simp only [decodeCursor]
    by_cases hc : c = []
    · simp [hc]
    · rw [if_neg hc]
      simp only [h]
      rw [if_neg (by omega)]

/-- C7 witness: round trip at 12345; `"!!!"` (no alphabet characters, NaN)
and `"LTU"` (decodes to `"-5"`, negative) both decode to 0. -/
theorem claim_C7_witness :
    decodeCursor (some (encodeCursor 12345)) = 12345 ∧
    decodeCursor (some (strBytes "!!!")) = 0 ∧
    decodeCursor (some (strBytes "LTU")) = 0 :=
  ⟨claim_C7.1 12345,
   claim_C7.2.2.1 (strBytes "!!!") (by decide),
   claim_C7.2.2.2 (strBytes "LTU") (-5) (by decide) (by decide)⟩
